import Mathlib

/-!
Verification development for the CronGuard OSS monitor status model.

The definitions below are a shallow embedding of the TypeScript source:
the schedule parser and status engine from lib/types.ts, the timeline
reconstruction from the dashboard component, the SQLite-backed storage
layer from lib/storage.ts and lib/db.ts, and the ping HTTP route
handlers. Timestamps are modelled as integers (milliseconds since the
epoch); the source stores ISO-8601 strings whose lexicographic order
agrees with chronological order at this granularity. JavaScript strings
are modelled as lists of characters.
-/

namespace CronGuard

/-! ## Schedule parser (parseScheduleInterval in lib/types.ts) -/

/-- Decides whether the pattern list is a leading segment of the string. -/
def startsWith : List Char → List Char → Bool
  | [], _ => true
  | _ :: _, [] => false
  | p :: ps, c :: cs => p == c && startsWith ps cs

/-- Decides whether the needle occurs as a contiguous substring, as the
JavaScript String.includes method does. -/
def containsSeq (needle : List Char) : List Char → Bool
  | [] => needle.isEmpty
  | c :: cs => startsWith needle (c :: cs) || containsSeq needle cs

/-- Decimal value of a digit list, as parseInt computes it on a string of
digits. -/
def digitsToNat (ds : List Char) : Nat :=
  ds.foldl (fun acc c => acc * 10 + (c.toNat - 48)) 0

/-- Whitespace class of the regular expressions in the source; the
schedules of interest use plain spaces. -/
def isSpaceChar (c : Char) : Bool :=
  c == ' ' || c == '\t' || c == '\n' || c == '\r'

/-- Attempts the anchored match of the regular expression
every backslash-s-plus digits backslash-s-star keyword at the head of the
string, returning the captured number. The pattern admits no backtracking
ambiguity, so maximal munch is exact. -/
def matchEveryNumAt (keyword : List Char) (s : List Char) : Option Nat :=
  if startsWith ("every".toList) s then
    let rest := s.drop 5
    let ws := rest.takeWhile isSpaceChar
    if ws.isEmpty then none
    else
      let rest1 := rest.dropWhile isSpaceChar
      let ds := rest1.takeWhile Char.isDigit
      if ds.isEmpty then none
      else
        let rest2 := (rest1.dropWhile Char.isDigit).dropWhile isSpaceChar
        if startsWith keyword rest2 then some (digitsToNat ds) else none
  else none

/-- Leftmost match of the numeric every-N pattern anywhere in the string,
as the JavaScript String.match method finds it. -/
def matchEveryNum (keyword : List Char) : List Char → Option Nat
  | [] => none
  | c :: cs =>
    match matchEveryNumAt keyword (c :: cs) with
    | some n => some n
    | none => matchEveryNum keyword cs

/-- Lower-cases the string as String.toLowerCase does on ASCII input. -/
def lowerStr (s : List Char) : List Char :=
  s.map Char.toLower

/-- Keyword of the numeric minutes pattern. -/
def kwMin : List Char := "min".toList

/-- Keyword of the numeric hours pattern. -/
def kwHour : List Char := "hour".toList

/-- Literal pattern every minute. -/
def kwEveryMinute : List Char := "every minute".toList

/-- Literal pattern every hour. -/
def kwEveryHour : List Char := "every hour".toList

/-- Literal pattern every day. -/
def kwEveryDay : List Char := "every day".toList

/-- Literal pattern daily. -/
def kwDaily : List Char := "daily".toList

/-- Literal pattern every week. -/
def kwEveryWeek : List Char := "every week".toList

/-- Literal pattern weekly. -/
def kwWeekly : List Char := "weekly".toList

/-- Rule cascade of parseScheduleInterval on the lower-cased string, in
source order. -/
def parseLowered (lower : List Char) : Nat :=
  match matchEveryNum kwMin lower with
  | some n => n
  | none =>
    if containsSeq kwEveryMinute lower then 1
    else
      match matchEveryNum kwHour lower with
      | some n => n * 60
      | none =>
        if containsSeq kwEveryHour lower then 60
        else if containsSeq kwEveryDay lower || containsSeq kwDaily lower then 24 * 60
        else if containsSeq kwEveryWeek lower || containsSeq kwWeekly lower then 7 * 24 * 60
        else 24 * 60

/-- Embedding of parseScheduleInterval from lib/types.ts: case
insensitive matching of the pattern set in source order, with 1440 as the
fallback for unparseable schedules. -/
def parseScheduleInterval (schedule : List Char) : Nat :=
  parseLowered (lowerStr schedule)

/-! ## Data model (interfaces Monitor and Ping in lib/types.ts) -/

/-- Derived monitor status. -/
inductive MStatus where
  | healthy
  | late
  | down
  | paused
deriving DecidableEq, Repr

/-- Client-declared outcome of one ping. -/
inductive PStatus where
  | success
  | failure
deriving DecidableEq, Repr

/-- Embedding of the Ping interface from lib/types.ts. -/
structure Ping where
  id : String
  timestamp : Int
  status : PStatus
  duration : Option Int
  message : Option String
  ip : Option String
deriving DecidableEq, Repr

/-- Embedding of the Monitor interface from lib/types.ts. The
intervalMinutes field is optional in the TypeScript type; a stored zero
is falsy there, which the status engine below reproduces. -/
structure Monitor where
  id : String
  name : String
  schedule : List Char
  intervalMinutes : Option Nat
  graceMinutes : Nat
  status : MStatus
  lastPing : Option Int
  pings : List Ping
  createdAt : Int
  paused : Bool
  pausedAt : Option Int
  pausedUntil : Option Int
  pauseReason : Option String
deriving DecidableEq, Repr

/-- Interval selection of the status engine: the JavaScript expression
monitor.intervalMinutes or-else parseScheduleInterval(monitor.schedule),
where both undefined and zero are falsy. -/
def effectiveInterval (m : Monitor) : Nat :=
  match m.intervalMinutes with
  | some i => if i = 0 then parseScheduleInterval m.schedule else i
  | none => parseScheduleInterval m.schedule

/-! ## Status engine (getMonitorStatus in lib/types.ts) -/

/-- Embedding of getMonitorStatus. The paused branch of the source
inspects pausedUntil against the clock but returns paused on every path,
which is reproduced literally here. -/
def getMonitorStatus (m : Monitor) (now : Int) : MStatus :=
  if m.paused then
    match m.pausedUntil with
    | some resumeTime => if resumeTime ≤ now then MStatus.paused else MStatus.paused
    | none => MStatus.paused
  else
    match m.lastPing with
    | none => MStatus.down
    | some lastPingTime =>
      let graceMs : Int := (m.graceMinutes : Int) * 60 * 1000
      let intervalMs : Int := (effectiveInterval m : Int) * 60 * 1000
      let expectedNextPing := lastPingTime + intervalMs
      let timeSinceExpected := now - expectedNextPing
      if graceMs < timeSinceExpected then MStatus.down
      else if 0 < timeSinceExpected then MStatus.late
      else MStatus.healthy

/-! ## Timeline reconstruction (buildPingDisplay in the dashboard) -/

/-- One display marker of the timeline. -/
inductive Marker where
  | ping (p : Ping)
  | missed (timestamp : Int)
  | late (timestamp : Int)
deriving DecidableEq, Repr

/-- Decides whether a marker is a synthetic missed marker. -/
def Marker.isMissed : Marker → Bool
  | .missed _ => true
  | _ => false

/-- Ceiling of the exact quotient, as Math.ceil computes it on the result
of JavaScript division for a positive divisor. -/
def jsCeilDiv (a b : Int) : Int :=
  -((-a) / b)

/-- Leading synthetic markers of buildPingDisplay: the block emitted from
the comparison of the clock against the last recorded ping, before any
real ping is emitted. -/
def leadingMarkers (intervalMs graceMs : Int) (lastPing : Option Int) (now : Int) : List Marker :=
  match lastPing with
  | none => []
  | some lastPingTime =>
    let timeSinceLastPing := now - lastPingTime
    if intervalMs < timeSinceLastPing ∧ timeSinceLastPing ≤ intervalMs + graceMs then
      [Marker.late now]
    else if intervalMs + graceMs < timeSinceLastPing then
      let missedCount := ((timeSinceLastPing - graceMs) / intervalMs).toNat
      (List.range missedCount).map (fun (i : Nat) => Marker.missed (now - (i : Int) * intervalMs))
    else []

/-- History loop of buildPingDisplay: each real ping is emitted, and when
the gap to the next (older) ping exceeds interval plus grace, a block of
missed markers is inserted between them. -/
def historyMarkers (intervalMs graceMs : Int) : List Ping → List Marker
  | [] => []
  | [p] => [Marker.ping p]
  | p :: q :: rest =>
    let gap := p.timestamp - q.timestamp
    if intervalMs + graceMs < gap then
      let missedCount := (jsCeilDiv gap intervalMs - 1).toNat
      Marker.ping p ::
        ((List.range missedCount).map (fun (j : Nat) => Marker.missed (p.timestamp - ((j : Int) + 1) * intervalMs))
          ++ historyMarkers intervalMs graceMs (q :: rest))
    else
      Marker.ping p :: historyMarkers intervalMs graceMs (q :: rest)

/-- Embedding of buildPingDisplay from the dashboard component: the
leading synthetic block, then the descending ping history with inferred
missed markers, truncated to 75 entries by the final slice. -/
def buildPingDisplay (m : Monitor) (now : Int) : List Marker :=
  let intervalMinutes := effectiveInterval m
  let intervalMs : Int := (intervalMinutes : Int) * 60 * 1000
  let graceMs : Int := (m.graceMinutes : Int) * 60 * 1000
  (leadingMarkers intervalMs graceMs m.lastPing now
    ++ historyMarkers intervalMs graceMs m.pings).take 75

/-! ## Persistence model (lib/db.ts rows and prepared statements) -/

/-- Row of the monitors table. -/
structure MonitorRow where
  id : String
  name : String
  schedule : List Char
  interval_minutes : Nat
  grace_minutes : Nat
  last_ping : Option Int
  created_at : Int
  paused : Bool
  paused_at : Option Int
  paused_until : Option Int
  pause_reason : Option String
deriving DecidableEq, Repr

/-- Row of the pings table. -/
structure PingRow where
  id : String
  monitorId : String
  timestamp : Int
  status : PStatus
  duration : Option Int
  message : Option String
  ip : Option String
deriving DecidableEq, Repr

/-- Database state: the two tables. -/
structure Store where
  monitors : List MonitorRow
  pings : List PingRow
deriving DecidableEq, Repr

/-- Lookup of the getMonitor prepared statement. -/
def getMonitorRow (st : Store) (id : String) : Option MonitorRow :=
  st.monitors.find? (fun r => r.id == id)

/-- Insertion into a list sorted by descending timestamp. -/
def insertDesc (p : PingRow) : List PingRow → List PingRow
  | [] => [p]
  | q :: qs => if q.timestamp ≤ p.timestamp then p :: q :: qs else q :: insertDesc p qs

/-- Sort by descending timestamp, modelling the ORDER BY of the
getPingsForMonitor prepared statement. -/
def sortPingsDesc : List PingRow → List PingRow
  | [] => []
  | p :: ps => insertDesc p (sortPingsDesc ps)

/-- The getPingsForMonitor prepared statement: pings of one monitor,
newest first, limited to 75 rows. -/
def getPingsForMonitor (st : Store) (id : String) : List PingRow :=
  (sortPingsDesc (st.pings.filter (fun q => q.monitorId == id))).take 75

/-! ## Storage layer (lib/storage.ts) -/

/-- Embedding of rowToPing. -/
def rowToPing (row : PingRow) : Ping :=
  { id := row.id
    timestamp := row.timestamp
    status := row.status
    duration := row.duration
    message := row.message
    ip := row.ip }

/-- Monitor object built from a row before the status computation, with
the placeholder down status of rowToMonitor. -/
def monitorOfRow (row : MonitorRow) (pings : List Ping) : Monitor :=
  { id := row.id
    name := row.name
    schedule := row.schedule
    intervalMinutes := some row.interval_minutes
    graceMinutes := row.grace_minutes
    status := MStatus.down
    lastPing := row.last_ping
    pings := pings
    createdAt := row.created_at
    paused := row.paused
    pausedAt := row.paused_at
    pausedUntil := row.paused_until
    pauseReason := row.pause_reason }

/-- Embedding of rowToMonitor: the monitor is built with a placeholder
down status which is then overwritten with the computed one. -/
def rowToMonitor (row : MonitorRow) (pings : List Ping) (now : Int) : Monitor :=
  { monitorOfRow row pings with status := getMonitorStatus (monitorOfRow row pings) now }

/-- Embedding of the storage getMonitor function, which recomputes the
derived status at read time. -/
def getMonitor (st : Store) (id : String) (now : Int) : Option Monitor :=
  match getMonitorRow st id with
  | none => none
  | some row => some (rowToMonitor row ((getPingsForMonitor st id).map rowToPing) now)

/-- State effect of createMonitor: the interval is derived from the
schedule and the monitor starts active with no pings. -/
def createMonitor (st : Store) (newId : String) (now : Int)
    (name : String) (schedule : List Char) (graceMinutes : Nat) : Store :=
  let row : MonitorRow :=
    { id := newId
      name := name
      schedule := schedule
      interval_minutes := parseScheduleInterval schedule
      grace_minutes := graceMinutes
      last_ping := none
      created_at := now
      paused := false
      paused_at := none
      paused_until := none
      pause_reason := none }
  { st with monitors := st.monitors ++ [row] }

/-- Partial update record of updateMonitor. A field holding none is
absent from the update, which the JavaScript nullish coalescing treats
the same as a null value: the existing value is kept. -/
structure MonitorUpdates where
  name : Option String := none
  schedule : Option (List Char) := none
  graceMinutes : Option Nat := none
  lastPing : Option Int := none
  paused : Option Bool := none
  pausedAt : Option Int := none
  pausedUntil : Option Int := none
  pauseReason : Option String := none
deriving DecidableEq, Repr

/-- State effect of updateMonitor from lib/storage.ts: each column is the
updated value when one is supplied, otherwise the existing one; the
interval is re-derived only when a truthy (non-empty) schedule is
supplied. -/
def updateMonitor (st : Store) (id : String) (u : MonitorUpdates) : Store :=
  match getMonitorRow st id with
  | none => st
  | some existing =>
    let newRow : MonitorRow :=
      { id := id
        name := u.name.getD existing.name
        schedule := u.schedule.getD existing.schedule
        interval_minutes :=
          match u.schedule with
          | some ns => if ns.isEmpty then existing.interval_minutes else parseScheduleInterval ns
          | none => existing.interval_minutes
        grace_minutes := u.graceMinutes.getD existing.grace_minutes
        last_ping :=
          match u.lastPing with
          | some t => some t
          | none => existing.last_ping
        created_at := existing.created_at
        paused := u.paused.getD existing.paused
        paused_at :=
          match u.pausedAt with
          | some t => some t
          | none => existing.paused_at
        paused_until :=
          match u.pausedUntil with
          | some t => some t
          | none => existing.paused_until
        pause_reason :=
          match u.pauseReason with
          | some s => some s
          | none => existing.pause_reason }
    { st with monitors := st.monitors.map (fun r => if r.id == id then newRow else r) }

/-- Embedding of recordPing from lib/storage.ts. The generated id and the
server clock reading are parameters. The ping insert and the last-ping
update of the source run inside one database transaction, modelled here
as the single state transition below. -/
def recordPing (st : Store) (id : String) (newId : String) (now : Int)
    (success : Bool) (duration : Option Int) (message ip : Option String) :
    Option Ping × Store :=
  match getMonitorRow st id with
  | none => (none, st)
  | some _ =>
    let ping : Ping :=
      { id := newId
        timestamp := now
        status := if success then PStatus.success else PStatus.failure
        duration := duration
        message := message
        ip := ip }
    let row : PingRow :=
      { id := newId
        monitorId := id
        timestamp := now
        status := ping.status
        duration := duration
        message := message
        ip := ip }
    (some ping,
      { monitors := st.monitors.map (fun r => if r.id == id then { r with last_ping := some now } else r)
        pings := st.pings ++ [row] })

/-- State effect of the pauseMonitor prepared statement on one monitor id. -/
def pauseStmt (st : Store) (id : String) (now : Int)
    (reason : Option String) (untilT : Option Int) : Store :=
  { st with
    monitors := st.monitors.map (fun r =>
      if r.id == id then
        { r with paused := true, paused_at := some now, paused_until := untilT, pause_reason := reason }
      else r) }

/-- State effect of pauseMonitor from lib/storage.ts: not-found leaves
the store unchanged. -/
def pauseMonitor (st : Store) (id : String) (now : Int)
    (reason : Option String) (untilT : Option Int) : Store :=
  match getMonitorRow st id with
  | none => st
  | some _ => pauseStmt st id now reason untilT

/-- Cleared pause sub-state of the resumeMonitor prepared statement. -/
def clearPause (r : MonitorRow) : MonitorRow :=
  { r with paused := false, paused_at := none, paused_until := none, pause_reason := none }

/-- State effect of the resumeMonitor prepared statement on one monitor id. -/
def resumeStmt (st : Store) (id : String) : Store :=
  { st with monitors := st.monitors.map (fun r => if r.id == id then clearPause r else r) }

/-- State effect of resumeMonitor from lib/storage.ts. -/
def resumeMonitor (st : Store) (id : String) : Store :=
  match getMonitorRow st id with
  | none => st
  | some _ => resumeStmt st id

/-- Selection predicate of the getPausedMonitorsToResume prepared
statement: paused, with a set resume time that has passed. -/
def shouldResumeB (r : MonitorRow) (now : Int) : Bool :=
  r.paused &&
    match r.paused_until with
    | some u => decide (u ≤ now)
    | none => false

/-- Embedding of checkAndResumeMonitors from lib/storage.ts: the sweep
selects the expired timed pauses, then resumes each selected id in turn
and returns the list of resumed ids. -/
def checkAndResumeMonitors (st : Store) (now : Int) : List String × Store :=
  let toResume := (st.monitors.filter (fun r => shouldResumeB r now)).map (fun r => r.id)
  (toResume, toResume.foldl resumeStmt st)

/-! ## Pause sub-state invariant (data model section of the spec) -/

/-- Pause invariant of one monitor row: the pause timestamp is set
exactly when the monitor is paused, and a pause reason is only set while
paused. The resume time is unconstrained (absent means indefinite). -/
def pauseInvB (r : MonitorRow) : Bool :=
  (r.paused_at.isSome == r.paused) && (!r.pause_reason.isSome || r.paused)

/-- Pause invariant over every monitor of the store. -/
def storeInvB (st : Store) : Bool :=
  st.monitors.all pauseInvB

/-- Decides that an update record carries none of the pause sub-state
fields, as the PATCH route validation guarantees for requests. -/
def noPauseFields (u : MonitorUpdates) : Bool :=
  u.paused.isNone && u.pausedAt.isNone && u.pausedUntil.isNone && u.pauseReason.isNone

/-! ## Ping route handlers (app/api/ping/[id]/route.ts) -/

/-- Plaintext responses of the GET handler. -/
structure PlainResponse where
  status : Nat
  body : String
deriving DecidableEq, Repr

/-- Monitor summary embedded in the POST handler JSON response. -/
structure MonitorSummary where
  id : String
  name : String
  status : MStatus
deriving DecidableEq, Repr

/-- JSON response of the POST handler. -/
structure PostPingResponse where
  httpStatus : Nat
  pingId : Option String
  monitor : Option MonitorSummary
deriving DecidableEq, Repr

/-- Embedding of the GET ping handler. The rate limit verdict, the
generated ping id, the clock, the measured handler duration and the
client address derived from the request headers are parameters. When the
monitor is known and the request is not rate limited, the handler records
a success ping carrying the measured duration and the client address and
answers 200 OK in plaintext. -/
def handleGetPing (st : Store) (id : String) (allowed : Bool) (newId : String)
    (now : Int) (elapsed : Int) (ip : Option String) : PlainResponse × Store :=
  if !allowed then ({ status := 429, body := "Rate limit exceeded" }, st)
  else
    match getMonitor st id now with
    | none => ({ status := 404, body := "Monitor not found" }, st)
    | some _ =>
      let (_, st1) := recordPing st id newId now true (some elapsed) none ip
      ({ status := 200, body := "OK" }, st1)

/-- Parsed body of a POST ping request: absent, validated, or rejected by
validation. -/
inductive PingBody where
  | noBody
  | valid (success : Bool) (duration : Option Int) (message : Option String)
  | invalid
deriving DecidableEq, Repr

/-- Embedding of the POST ping handler. The monitor summary of the JSON
response is taken from the monitor read before the new ping is recorded,
so its status field is the one computed from the pre-ping state. -/
def handlePostPing (st : Store) (id : String) (allowed : Bool) (newId : String)
    (now : Int) (body : PingBody) (ip : Option String) : PostPingResponse × Store :=
  if !allowed then ({ httpStatus := 429, pingId := none, monitor := none }, st)
  else
    match getMonitor st id now with
    | none => ({ httpStatus := 404, pingId := none, monitor := none }, st)
    | some monitor =>
      match body with
      | PingBody.invalid => ({ httpStatus := 400, pingId := none, monitor := none }, st)
      | PingBody.noBody =>
        let (ping, st1) := recordPing st id newId now true none none ip
        ({ httpStatus := 200
           pingId := ping.map (fun p => p.id)
           monitor := some { id := monitor.id, name := monitor.name, status := monitor.status } }, st1)
      | PingBody.valid success duration message =>
        let (ping, st1) := recordPing st id newId now success duration message ip
        ({ httpStatus := 200
           pingId := ping.map (fun p => p.id)
           monitor := some { id := monitor.id, name := monitor.name, status := monitor.status } }, st1)

/-! ## Concrete fixtures used by witnesses and counterexamples -/

/-- Example active monitor: every 5 minutes, grace 10, last ping at 0. -/
def mon1 : Monitor :=
  { id := "m1", name := "backup", schedule := "Every 5 minutes".toList
    intervalMinutes := some 5, graceMinutes := 10, status := MStatus.down
    lastPing := some 0, pings := [], createdAt := 0
    paused := false, pausedAt := none, pausedUntil := none, pauseReason := none }

/-- Example paused monitor whose scheduled resume time has already passed. -/

def mon2 : Monitor :=
  { id := "m2", name := "report", schedule := "daily".toList
    intervalMinutes := some 1440, graceMinutes := 15, status := MStatus.paused
    lastPing := some 0, pings := [], createdAt := 0
    paused := true, pausedAt := some 500, pausedUntil := some 1000, pauseReason := some "maintenance" }

/-- Example stored monitor row. -/

def row1 : MonitorRow :=
  { id := "m1", name := "backup", schedule := "Every 5 minutes".toList
    interval_minutes := 5, grace_minutes := 10, last_ping := some 0, created_at := 0
    paused := false, paused_at := none, paused_until := none, pause_reason := none }

/-- Example store holding one active monitor and no pings. -/

def st1 : Store := { monitors := [row1], pings := [] }

/-- Paused monitor row with an expired timed pause. -/
def rowExpired : MonitorRow :=
  { id := "me", name := "expired", schedule := "daily".toList
    interval_minutes := 1440, grace_minutes := 15, last_ping := some 0, created_at := 0
    paused := true, paused_at := some 100, paused_until := some 500, pause_reason := some "hold" }

/-- Paused monitor row with an indefinite pause. -/

def rowIndef : MonitorRow :=
  { id := "mi", name := "indef", schedule := "daily".toList
    interval_minutes := 1440, grace_minutes := 15, last_ping := some 0, created_at := 0
    paused := true, paused_at := some 100, paused_until := none, pause_reason := none }

/-- Paused monitor row whose timed pause has not yet expired. -/

def rowFuture : MonitorRow :=
  { id := "mf", name := "future", schedule := "daily".toList
    interval_minutes := 1440, grace_minutes := 15, last_ping := some 0, created_at := 0
    paused := true, paused_at := some 100, paused_until := some 5000, pause_reason := none }

/-- Store mixing the three pause shapes and one active monitor. -/

def st4 : Store := { monitors := [rowExpired, rowIndef, rowFuture, row1], pings := [] }

/-- Empty update record. -/
def noUpdates : MonitorUpdates := {}

/-- Update record that sets the paused flag alone, as a library caller of
updateMonitor may pass. -/

def uSetPaused : MonitorUpdates := { paused := some true }

/-- Real ping fixture at time 0. -/
def ping7a : Ping :=
  { id := "a", timestamp := 0, status := PStatus.success
    duration := none, message := none, ip := none }

/-- Real ping fixture five minutes earlier. -/

def ping7b : Ping :=
  { id := "b", timestamp := -300000, status := PStatus.failure
    duration := none, message := none, ip := none }

/-- Monitor fixture for the timeline: one minute interval, one minute
grace, stale last ping and a gap in its history. -/

def mon7 : Monitor :=
  { id := "m7", name := "timeline", schedule := "every minute".toList
    intervalMinutes := some 1, graceMinutes := 1, status := MStatus.down
    lastPing := some 0, pings := [ping7a, ping7b], createdAt := 0
    paused := false, pausedAt := none, pausedUntil := none, pauseReason := none }

/-! ## Helper lemmas -/

theorem getMonitorStatus_of_paused (m : Monitor) (now : Int) (h : m.paused = true) :
    getMonitorStatus m now = MStatus.paused := by
  unfold getMonitorStatus
  rw [h]
  cases m.pausedUntil <;> simp

/-- Claim C2: a monitor with paused set always reports status paused,
whatever its last ping, interval and grace are, and even when the
scheduled resume time has already elapsed. -/

theorem getMonitorStatus_fresh (m : Monitor) (now : Int)
    (hp : m.paused = false) (hlp : m.lastPing = some now) :
    getMonitorStatus m now = MStatus.healthy := by
  unfold getMonitorStatus
  rw [hp, hlp]
  simp only [Bool.false_eq_true, if_false]
  have h1 : ¬ ((m.graceMinutes : Int) * 60 * 1000 < now - (now + (effectiveInterval m : Int) * 60 * 1000)) := by
    have := Int.ofNat_nonneg m.graceMinutes
    have := Int.ofNat_nonneg (effectiveInterval m)
    omega
  have h2 : ¬ ((0 : Int) < now - (now + (effectiveInterval m : Int) * 60 * 1000)) := by
    have := Int.ofNat_nonneg (effectiveInterval m)
    omega
  simp only [h1, if_false, h2]

theorem monitorOfRow_fresh_healthy (row : MonitorRow) (pings : List Ping) (now : Int)
    (hp : row.paused = false) (hlp : row.last_ping = some now) :
    getMonitorStatus (monitorOfRow row pings) now = MStatus.healthy :=
  getMonitorStatus_fresh (monitorOfRow row pings) now hp hlp

/-- Claim C10: for an accepted POST ping on an existing monitor, the
monitor status in the JSON response is the one computed from the state
read before the new ping was recorded; in particular a monitor that was
down still answers down in that response, although a fresh read of the
updated store at the same instant reports healthy. -/

theorem find?_map_update (l : List MonitorRow) (id : String) (f : MonitorRow → MonitorRow)
    (hf : ∀ r, (f r).id = r.id) (r : MonitorRow)
    (h : l.find? (fun x => x.id == id) = some r) :
    (l.map (fun x => if x.id == id then f x else x)).find? (fun x => x.id == id)
      = some (f r) := by
  induction l with
  | nil => simp at h
  | cons a l ih =>
    by_cases ha : (a.id == id) = true
    · simp only [List.find?, ha] at h
      injection h with h
      subst h
      have hfa : ((f a).id == id) = true := by rw [hf a]; exact ha
      simp only [List.map_cons, if_pos ha, List.find?, hfa]
    · simp only [List.find?, ha] at h
      have ha2 : (a.id == id) = false := by
        cases hab : (a.id == id) with
        | false => rfl
        | true => exact absurd hab ha
      simp only [List.map_cons, ha2, Bool.false_eq_true, if_false, List.find?]
      exact ih h

/-- Claim C3: recordPing on an existing monitor returns a ping carrying
the generated id and the server timestamp, appends exactly that ping row
in the same transition that sets the monitor last ping to the same
timestamp, and when the generated id is fresh that row is the only one
bearing it. -/

theorem foldl_resumeStmt_pings (ids : List String) (st : Store) :
    (ids.foldl resumeStmt st).pings = st.pings := by
  induction ids generalizing st with
  | nil => rfl
  | cons i ids ih => rw [List.foldl_cons]; exact ih _

/-- Helper: the sweep loop acts on every monitor row independently. -/

theorem foldl_resumeStmt_monitors (ids : List String) (st : Store) :
    (ids.foldl resumeStmt st).monitors
      = st.monitors.map (fun r => ids.foldl (fun x i => if x.id == i then clearPause x else x) r) := by
  induction ids generalizing st with
  | nil => simp
  | cons i ids ih =>
    rw [List.foldl_cons, ih]
    show (st.monitors.map _).map _ = _
    rw [List.map_map]
    rfl

/-- Helper: resuming a list of ids clears one row exactly when its id is
in the list, and is idempotent on already cleared rows. -/

theorem perRow_fold (ids : List String) (r : MonitorRow) :
    ids.foldl (fun x i => if x.id == i then clearPause x else x) r
      = if r.id ∈ ids then clearPause r else r := by
  induction ids generalizing r with
  | nil => simp
  | cons i ids ih =>
    rw [List.foldl_cons]
    by_cases h : (r.id == i) = true
    · rw [if_pos h, ih]
      have hmem : r.id ∈ i :: ids := List.mem_cons.mpr (Or.inl (eq_of_beq h))
      rw [if_pos hmem]
      by_cases h2 : (clearPause r).id ∈ ids
      · rw [if_pos h2]
        rfl
      · rw [if_neg h2]
    · rw [if_neg h, ih]
      have hne : r.id ≠ i := fun e => h (beq_iff_eq.mpr e)
      by_cases h2 : r.id ∈ ids
      · rw [if_pos h2, if_pos (List.mem_cons.mpr (Or.inr h2))]
      · rw [if_neg h2, if_neg ?_]
        rw [List.mem_cons]
        rintro (e | e)
        · exact hne e
        · exact h2 e

/-- Claim C4: the sweep returns exactly the ids of the monitors that are
paused with a set and expired resume time, clears the pause sub-state of
exactly those rows while leaving every other row and the pings table
unchanged, and never returns a monitor whose pause is indefinite. -/

theorem countP_map_const_true {α β : Type} (p : β → Bool) (f : α → β) (l : List α)
    (h : ∀ x, p (f x) = true) : (l.map f).countP p = l.length := by
  induction l with
  | nil => rfl
  | cons a l ih => simp [List.countP_cons, h, ih]

/-! ## Claim theorems -/

theorem status_engine_thresholds (m : Monitor) (T : Int) (I G : Nat)
    (hp : m.paused = false) (hlp : m.lastPing = some T)
    (hI : m.intervalMinutes = some I) (hIpos : 1 ≤ I)
    (hG : m.graceMinutes = G) (hGpos : 1 ≤ G) :
    (∀ now : Int, T ≤ now → now ≤ T + (I : Int) * 60000 →
        getMonitorStatus m now = MStatus.healthy)
    ∧ (∀ now : Int, T + (I : Int) * 60000 < now → now ≤ T + ((I : Int) + (G : Int)) * 60000 →
        getMonitorStatus m now = MStatus.late)
    ∧ (∀ now : Int, T + ((I : Int) + (G : Int)) * 60000 < now →
        getMonitorStatus m now = MStatus.down)
    ∧ getMonitorStatus m (T + (I : Int) * 60000) = MStatus.healthy
    ∧ getMonitorStatus m (T + ((I : Int) + (G : Int)) * 60000) = MStatus.late := by
  have hEff : effectiveInterval m = I := by
    unfold effectiveInterval
    rw [hI]
    exact if_neg (Nat.one_le_iff_ne_zero.mp hIpos)
  have key : ∀ now : Int, getMonitorStatus m now =
      (if (G : Int) * 60 * 1000 < now - (T + (I : Int) * 60 * 1000) then MStatus.down
       else if 0 < now - (T + (I : Int) * 60 * 1000) then MStatus.late
       else MStatus.healthy) := by
    intro now
    unfold getMonitorStatus
    rw [hp, hlp, hEff, hG]
    simp only [Bool.false_eq_true, if_false]
  refine ⟨?_, ?_, ?_, ?_, ?_⟩
  · intro now h1 h2; rw [key]; split_ifs <;> first | rfl | (exfalso; omega)
  · intro now h1 h2; rw [key]; split_ifs <;> first | rfl | (exfalso; omega)
  · intro now h1; rw [key]; split_ifs <;> first | rfl | (exfalso; omega)
  · rw [key]; split_ifs <;> first | rfl | (exfalso; omega)
  · rw [key]; split_ifs <;> first | rfl | (exfalso; omega)

/-- Witness for C1 on a concrete monitor, including both boundary instants. -/

theorem status_engine_thresholds_witness :
    getMonitorStatus mon1 150000 = MStatus.healthy
    ∧ getMonitorStatus mon1 300000 = MStatus.healthy
    ∧ getMonitorStatus mon1 600000 = MStatus.late
    ∧ getMonitorStatus mon1 900000 = MStatus.late
    ∧ getMonitorStatus mon1 900001 = MStatus.down :=
  have h := status_engine_thresholds mon1 0 5 10 rfl rfl rfl (by decide) rfl (by decide)
  ⟨h.1 150000 (by decide) (by decide), h.2.2.2.1,
   h.2.1 600000 (by decide) (by decide), h.2.2.2.2,
   h.2.2.1 900001 (by decide)⟩

/-- Claim C5: recordPing on an unknown monitor id reports not-found by
returning none and leaves the store exactly unchanged. -/

theorem paused_monitor_always_paused (m : Monitor) (now : Int) (h : m.paused = true) :
    getMonitorStatus m now = MStatus.paused :=
  getMonitorStatus_of_paused m now h

/-- Witness for C2 at a paused monitor whose resume time lies in the past. -/

theorem paused_monitor_always_paused_witness :
    mon2.paused = true ∧ mon2.pausedUntil = some 1000
    ∧ getMonitorStatus mon2 2000 = MStatus.paused :=
  ⟨rfl, rfl, paused_monitor_always_paused mon2 2000 rfl⟩

/-- Claim C1: for an active monitor with last ping T, interval I and grace
G, the status is healthy up to T plus I, late strictly after that up to T
plus I plus G, and down strictly after that; the two boundary instants
give healthy and late respectively. Times are in milliseconds, interval
and grace in minutes. -/

theorem recordPing_updates_lastPing (st : Store) (id newId : String) (now : Int)
    (success : Bool) (duration : Option Int) (message ip : Option String) (r : MonitorRow)
    (hr : getMonitorRow st id = some r)
    (hfresh : ∀ q ∈ st.pings, q.id ≠ newId) :
    ∃ p : Ping,
      (recordPing st id newId now success duration message ip).1 = some p
      ∧ p.id = newId ∧ p.timestamp = now
      ∧ (recordPing st id newId now success duration message ip).2.pings
          = st.pings ++ [{ id := newId, monitorId := id, timestamp := now
                           status := p.status, duration := duration
                           message := message, ip := ip }]
      ∧ ((recordPing st id newId now success duration message ip).2.pings.filter
            (fun q => q.id == newId))
          = [{ id := newId, monitorId := id, timestamp := now
               status := p.status, duration := duration
               message := message, ip := ip }]
      ∧ getMonitorRow (recordPing st id newId now success duration message ip).2 id
          = some { r with last_ping := some now } := by
  unfold recordPing
  rw [hr]
  refine ⟨_, rfl, rfl, rfl, rfl, ?_, ?_⟩
  · rw [List.filter_append]
    have hnil : st.pings.filter (fun q => q.id == newId) = [] := by
      rw [List.filter_eq_nil_iff]
      intro q hq
      simpa using hfresh q hq
    rw [hnil]
    simp
  · exact find?_map_update st.monitors id
      (fun x => { x with last_ping := some now }) (fun _ => rfl) r hr

/-- Witness for C3 on the concrete one-monitor store. -/

theorem recordPing_updates_lastPing_witness :
    ∃ p : Ping,
      (recordPing st1 "m1" "p1" 777 true none none none).1 = some p
      ∧ p.id = "p1" ∧ p.timestamp = 777
      ∧ (recordPing st1 "m1" "p1" 777 true none none none).2.pings
          = st1.pings ++ [{ id := "p1", monitorId := "m1", timestamp := 777
                            status := p.status, duration := none
                            message := none, ip := none }]
      ∧ ((recordPing st1 "m1" "p1" 777 true none none none).2.pings.filter
            (fun q => q.id == "p1"))
          = [{ id := "p1", monitorId := "m1", timestamp := 777
               status := p.status, duration := none
               message := none, ip := none }]
      ∧ getMonitorRow (recordPing st1 "m1" "p1" 777 true none none none).2 "m1"
          = some { row1 with last_ping := some 777 } :=
  recordPing_updates_lastPing st1 "m1" "p1" 777 true none none none row1
    (by decide) (by intro q hq; simp [st1] at hq)

theorem sweep_resumes_exactly_expired (st : Store) (now : Int)
    (hn : (st.monitors.map (fun r => r.id)).Nodup) :
    (checkAndResumeMonitors st now).1
        = (st.monitors.filter (fun r => shouldResumeB r now)).map (fun r => r.id)
    ∧ (checkAndResumeMonitors st now).2.monitors
        = st.monitors.map (fun r => if shouldResumeB r now then clearPause r else r)
    ∧ (checkAndResumeMonitors st now).2.pings = st.pings
    ∧ (∀ r ∈ st.monitors, r.paused_until = none →
        r.id ∉ (checkAndResumeMonitors st now).1) := by
  have hids : ∀ r ∈ st.monitors,
      (r.id ∈ (st.monitors.filter (fun x => shouldResumeB x now)).map (fun x => x.id)
        ↔ shouldResumeB r now = true) := by
    intro r hr
    constructor
    · intro hmem
      obtain ⟨x, hx, hxid⟩ := List.mem_map.mp hmem
      obtain ⟨hxmem, hxp⟩ := List.mem_filter.mp hx
      have hxr := List.inj_on_of_nodup_map hn hxmem hr hxid
      exact hxr ▸ hxp
    · intro hp
      exact List.mem_map.mpr ⟨r, List.mem_filter.mpr ⟨hr, hp⟩, rfl⟩
  refine ⟨rfl, ?_, ?_, ?_⟩
  · show (((st.monitors.filter fun r => shouldResumeB r now).map fun r => r.id).foldl
        resumeStmt st).monitors = _
    rw [foldl_resumeStmt_monitors]
    apply List.map_congr_left
    intro r hr
    rw [perRow_fold]
    by_cases hp : shouldResumeB r now = true
    · rw [if_pos ((hids r hr).mpr hp), if_pos hp]
    · rw [if_neg (fun hmem => hp ((hids r hr).mp hmem)), if_neg hp]
  · show (((st.monitors.filter fun r => shouldResumeB r now).map fun r => r.id).foldl
        resumeStmt st).pings = _
    exact foldl_resumeStmt_pings _ _
  · intro r hr hindef hmem
    have hp := (hids r hr).mp hmem
    unfold shouldResumeB at hp
    rw [hindef] at hp
    simp at hp

/-- Witness for C4 on a store mixing an expired timed pause, an
indefinite pause, a future timed pause and an active monitor. -/

theorem sweep_resumes_exactly_expired_witness :
    (checkAndResumeMonitors st4 1000).1
        = (st4.monitors.filter (fun r => shouldResumeB r 1000)).map (fun r => r.id)
    ∧ (checkAndResumeMonitors st4 1000).2.monitors
        = st4.monitors.map (fun r => if shouldResumeB r 1000 then clearPause r else r)
    ∧ (checkAndResumeMonitors st4 1000).2.pings = st4.pings
    ∧ "mi" ∉ (checkAndResumeMonitors st4 1000).1 :=
  have h := sweep_resumes_exactly_expired st4 1000 (by decide)
  ⟨h.1, h.2.1, h.2.2.1, h.2.2.2 rowIndef (by decide) rfl⟩

theorem recordPing_unknown_monitor (st : Store) (id newId : String) (now : Int)
    (success : Bool) (duration : Option Int) (message ip : Option String)
    (h : getMonitorRow st id = none) :
    recordPing st id newId now success duration message ip = (none, st) := by
  unfold recordPing
  rw [h]

/-- Witness for C5 at a store that does not hold the pinged id. -/

theorem recordPing_unknown_monitor_witness :
    getMonitorRow st1 "zz" = none
    ∧ recordPing st1 "zz" "p9" 5 true none none none = (none, st1) :=
  ⟨by decide, recordPing_unknown_monitor st1 "zz" "p9" 5 true none none none (by decide)⟩

theorem update_breaks_pause_invariant_counterexample :
    storeInvB st1 = true
    ∧ storeInvB (updateMonitor st1 "m1" uSetPaused) = false := by
  decide

/-- Claim C6 (amended): create, pause, resume, sweep and record-ping all
preserve the pause invariant, and updateMonitor preserves it whenever the
update carries none of the pause sub-state fields, which is what the
PATCH route validation admits; an unrestricted updateMonitor call that
writes pause fields can break it. -/

theorem pause_invariant_preserved (st : Store) (h : storeInvB st = true)
    (newId : String) (now : Int) (name : String) (schedule : List Char) (grace : Nat)
    (id : String) (reason : Option String) (untilT : Option Int)
    (success : Bool) (duration : Option Int) (message ip : Option String)
    (u : MonitorUpdates) (hu : noPauseFields u = true) :
    storeInvB (createMonitor st newId now name schedule grace) = true
    ∧ storeInvB (updateMonitor st id u) = true
    ∧ storeInvB (pauseMonitor st id now reason untilT) = true
    ∧ storeInvB (resumeMonitor st id) = true
    ∧ storeInvB (checkAndResumeMonitors st now).2 = true
    ∧ storeInvB (recordPing st id newId now success duration message ip).2 = true := by
  have hu1 : u.paused = none := by
    cases hpu : u.paused with
    | none => rfl
    | some b => rw [noPauseFields, hpu] at hu; simp at hu
  have hu2 : u.pausedAt = none := by
    cases hpu : u.pausedAt with
    | none => rfl
    | some b => rw [noPauseFields, hpu] at hu; simp at hu
  have hu3 : u.pausedUntil = none := by
    cases hpu : u.pausedUntil with
    | none => rfl
    | some b => rw [noPauseFields, hpu] at hu; simp at hu
  have hu4 : u.pauseReason = none := by
    cases hpu : u.pauseReason with
    | none => rfl
    | some b => rw [noPauseFields, hpu] at hu; simp at hu
  refine ⟨?_, ?_, ?_, ?_, ?_, ?_⟩
  · unfold storeInvB createMonitor
    rw [List.all_append]
    unfold storeInvB at h
    rw [h]
    rfl
  · unfold updateMonitor
    cases hq : getMonitorRow st id with
    | none => exact h
    | some existing =>
      dsimp only
      unfold storeInvB at h ⊢
      rw [List.all_eq_true] at h ⊢
      intro x hx
      obtain ⟨a, ha, rfl⟩ := List.mem_map.mp hx
      by_cases hb : (a.id == id) = true
      · rw [if_pos hb]
        have hex : pauseInvB existing = true := h existing (List.mem_of_find?_eq_some hq)
        unfold pauseInvB at hex ⊢
        rw [hu1, hu2, hu3, hu4]
        simpa using hex
      · rw [if_neg hb]
        exact h a ha
  · unfold pauseMonitor
    cases hq : getMonitorRow st id with
    | none => exact h
    | some existing =>
      dsimp only
      unfold pauseStmt storeInvB
      rw [List.all_eq_true]
      intro x hx
      obtain ⟨a, ha, rfl⟩ := List.mem_map.mp hx
      by_cases hb : (a.id == id) = true
      · rw [if_pos hb]
        simp [pauseInvB]
      · rw [if_neg hb]
        exact (List.all_eq_true.mp h) a ha
  · unfold resumeMonitor
    cases hq : getMonitorRow st id with
    | none => exact h
    | some existing =>
      dsimp only
      unfold resumeStmt storeInvB
      rw [List.all_eq_true]
      intro x hx
      obtain ⟨a, ha, rfl⟩ := List.mem_map.mp hx
      by_cases hb : (a.id == id) = true
      · rw [if_pos hb]
        rfl
      · rw [if_neg hb]
        exact (List.all_eq_true.mp h) a ha
  · show storeInvB (((st.monitors.filter fun r => shouldResumeB r now).map fun r => r.id).foldl
        resumeStmt st) = true
    unfold storeInvB
    rw [foldl_resumeStmt_monitors, List.all_eq_true]
    intro x hx
    obtain ⟨a, ha, rfl⟩ := List.mem_map.mp hx
    rw [perRow_fold]
    by_cases hmem : a.id ∈ (st.monitors.filter fun r => shouldResumeB r now).map fun r => r.id
    · rw [if_pos hmem]
      rfl
    · rw [if_neg hmem]
      exact (List.all_eq_true.mp h) a ha
  · unfold recordPing
    cases hq : getMonitorRow st id with
    | none => exact h
    | some existing =>
      dsimp only
      unfold storeInvB
      rw [List.all_eq_true]
      intro x hx
      obtain ⟨a, ha, rfl⟩ := List.mem_map.mp hx
      by_cases hb : (a.id == id) = true
      · rw [if_pos hb]
        exact (List.all_eq_true.mp h) a ha
      · rw [if_neg hb]
        exact (List.all_eq_true.mp h) a ha

/-- Witness for C6 (amended): each preserved operation run on the
concrete one-monitor store. -/

theorem pause_invariant_preserved_witness :
    storeInvB (createMonitor st1 "m9" 50 "job" ("daily".toList) 15) = true
    ∧ storeInvB (updateMonitor st1 "m1" noUpdates) = true
    ∧ storeInvB (pauseMonitor st1 "m1" 50 (some "hold") (some 900)) = true
    ∧ storeInvB (resumeMonitor st1 "m1") = true
    ∧ storeInvB (checkAndResumeMonitors st1 50).2 = true
    ∧ storeInvB (recordPing st1 "m1" "m9" 50 true none none none).2 = true :=
  pause_invariant_preserved st1 (by decide) "m9" 50 "job" ("daily".toList) 15 "m1"
    (some "hold") (some 900) true none none none noUpdates rfl

theorem timeline_missed_formulas (m : Monitor) (now : Int) (I : Nat)
    (intervalMs graceMs : Int)
    (hI : m.intervalMinutes = some I) (hIpos : 1 ≤ I)
    (hms : intervalMs = (I : Int) * 60 * 1000)
    (hgs : graceMs = (m.graceMinutes : Int) * 60 * 1000) :
    buildPingDisplay m now
        = (leadingMarkers intervalMs graceMs m.lastPing now
            ++ historyMarkers intervalMs graceMs m.pings).take 75
    ∧ (buildPingDisplay m now).length ≤ 75
    ∧ (∀ T, m.lastPing = some T → intervalMs + graceMs < now - T →
        (leadingMarkers intervalMs graceMs m.lastPing now).countP Marker.isMissed
          = ((now - T - graceMs) / intervalMs).toNat)
    ∧ (∀ p q rest, intervalMs + graceMs < p.timestamp - q.timestamp →
        (historyMarkers intervalMs graceMs (p :: q :: rest)).countP Marker.isMissed
          = (jsCeilDiv (p.timestamp - q.timestamp) intervalMs - 1).toNat
            + (historyMarkers intervalMs graceMs (q :: rest)).countP Marker.isMissed)
    ∧ (∀ p q rest, ¬ (intervalMs + graceMs < p.timestamp - q.timestamp) →
        (historyMarkers intervalMs graceMs (p :: q :: rest)).countP Marker.isMissed
          = (historyMarkers intervalMs graceMs (q :: rest)).countP Marker.isMissed) := by
  have hEff : effectiveInterval m = I := by
    unfold effectiveInterval
    rw [hI]
    exact if_neg (Nat.one_le_iff_ne_zero.mp hIpos)
  have hbd : buildPingDisplay m now
      = (leadingMarkers intervalMs graceMs m.lastPing now
          ++ historyMarkers intervalMs graceMs m.pings).take 75 := by
    subst hms hgs
    unfold buildPingDisplay
    rw [hEff]
  refine ⟨hbd, ?_, ?_, ?_, ?_⟩
  · rw [hbd, List.length_take]
    exact Nat.min_le_left _ _
  · intro T hT hgap
    rw [hT, leadingMarkers]
    dsimp only
    rw [if_neg (by rintro ⟨h1, h2⟩; omega), if_pos hgap]
    have hc := countP_map_const_true Marker.isMissed
      (fun (i : Nat) => Marker.missed (now - (i : Int) * intervalMs))
      (List.range (((now - T - graceMs) / intervalMs).toNat)) (fun x => rfl)
    rw [hc, List.length_range]
  · intro p q rest hgap
    rw [historyMarkers]
    dsimp only
    rw [if_pos hgap]
    have hc := countP_map_const_true Marker.isMissed
      (fun (j : Nat) => Marker.missed (p.timestamp - ((j : Int) + 1) * intervalMs))
      (List.range ((jsCeilDiv (p.timestamp - q.timestamp) intervalMs - 1).toNat)) (fun x => rfl)
    rw [List.countP_cons, List.countP_append, hc, List.length_range]
    simp [Marker.isMissed]
  · intro p q rest hgap
    rw [historyMarkers]
    dsimp only
    rw [if_neg hgap]
    rw [List.countP_cons]
    simp [Marker.isMissed]

/-- Witness for C7 at a concrete monitor: five leading missed markers for
the stale last ping, four missed markers for the five minute gap between
two recorded pings, and the bounded output. -/

theorem timeline_missed_formulas_witness :
    (buildPingDisplay mon7 400000).length ≤ 75
    ∧ (leadingMarkers 60000 60000 (some 0) 400000).countP Marker.isMissed
        = ((400000 - 0 - (60000 : Int)) / 60000).toNat
    ∧ (historyMarkers 60000 60000 [ping7a, ping7b]).countP Marker.isMissed
        = (jsCeilDiv (ping7a.timestamp - ping7b.timestamp) 60000 - 1).toNat
          + (historyMarkers 60000 60000 [ping7b]).countP Marker.isMissed :=
  have h := timeline_missed_formulas mon7 400000 1 60000 60000 rfl (by decide)
    (by decide) (by decide)
  ⟨h.2.1, h.2.2.1 0 rfl (by decide), h.2.2.2.1 ping7a ping7b [] (by decide)⟩

theorem parseScheduleInterval_zero_counterexample :
    parseScheduleInterval ("every 0 minutes".toList) = 0
    ∧ ¬ (1 ≤ parseScheduleInterval ("every 0 minutes".toList)) := by
  decide

/-- Claim C8 (amended): the parser never errors and returns, for every
input, the value of the first matching rule: N for the numeric minutes
pattern, 60 times N for the numeric hours pattern, and 1440 when no
pattern matches. The result is at least 1 unless a numeric pattern
matched with N equal to 0, in which case it can be 0. -/

theorem parseScheduleInterval_total (s : List Char) :
    (∀ n, matchEveryNum kwMin (lowerStr s) = some n →
        parseScheduleInterval s = n)
    ∧ (∀ n, matchEveryNum kwMin (lowerStr s) = none →
        matchEveryNum kwHour (lowerStr s) = some n →
        containsSeq kwEveryMinute (lowerStr s) = false →
        parseScheduleInterval s = n * 60)
    ∧ (matchEveryNum kwMin (lowerStr s) ≠ some 0 →
        matchEveryNum kwHour (lowerStr s) ≠ some 0 →
        1 ≤ parseScheduleInterval s)
    ∧ (matchEveryNum kwMin (lowerStr s) = none →
        containsSeq kwEveryMinute (lowerStr s) = false →
        matchEveryNum kwHour (lowerStr s) = none →
        containsSeq kwEveryHour (lowerStr s) = false →
        containsSeq kwEveryDay (lowerStr s) = false →
        containsSeq kwDaily (lowerStr s) = false →
        containsSeq kwEveryWeek (lowerStr s) = false →
        containsSeq kwWeekly (lowerStr s) = false →
        parseScheduleInterval s = 1440) := by
  refine ⟨?_, ?_, ?_, ?_⟩
  · intro n h
    unfold parseScheduleInterval parseLowered
    rw [h]
  · intro n h1 h2 h3
    unfold parseScheduleInterval parseLowered
    rw [h1, h3, h2]
    simp
  · intro h1 h2
    unfold parseScheduleInterval parseLowered
    cases hm : matchEveryNum kwMin (lowerStr s) with
    | some n =>
      have hn : n ≠ 0 := fun e => h1 (e ▸ hm)
      dsimp only
      omega
    | none =>
      dsimp only
      by_cases hc1 : containsSeq kwEveryMinute (lowerStr s) = true
      · simp [hc1]
      · rw [Bool.not_eq_true] at hc1
        rw [hc1]
        simp only [Bool.false_eq_true, if_false]
        cases hh : matchEveryNum kwHour (lowerStr s) with
        | some n =>
          have hn : n ≠ 0 := fun e => h2 (e ▸ hh)
          dsimp only
          omega
        | none =>
          dsimp only
          split_ifs <;> omega
  · intro h1 h2 h3 h4 h5 h6 h7 h8
    unfold parseScheduleInterval parseLowered
    rw [h1, h2, h3, h4, h5, h6, h7, h8]
    simp

/-- Witness for C8 on concrete schedules: a numeric minutes match, a
numeric hours match, a positive result and the unparseable fallback. -/

theorem parseScheduleInterval_total_witness :
    parseScheduleInterval ("Every 5 minutes".toList) = 5
    ∧ parseScheduleInterval ("Every 2 hours".toList) = 2 * 60
    ∧ 1 ≤ parseScheduleInterval ("Every 5 minutes".toList)
    ∧ parseScheduleInterval ("launch the missiles".toList) = 1440 :=
  ⟨(parseScheduleInterval_total ("Every 5 minutes".toList)).1 5 (by decide),
   (parseScheduleInterval_total ("Every 2 hours".toList)).2.1 2 (by decide) (by decide) (by decide),
   (parseScheduleInterval_total ("Every 5 minutes".toList)).2.2.1 (by decide) (by decide),
   (parseScheduleInterval_total ("launch the missiles".toList)).2.2.2 (by decide) (by decide)
     (by decide) (by decide) (by decide) (by decide) (by decide) (by decide)⟩

theorem getPing_records_measured_metadata (st : Store) (id newId : String)
    (now elapsed : Int) (ip : Option String) (m : Monitor)
    (hm : getMonitor st id now = some m) :
    (handleGetPing st id true newId now elapsed ip).1 = { status := 200, body := "OK" }
    ∧ (handleGetPing st id true newId now elapsed ip).2.pings
        = st.pings ++ [{ id := newId, monitorId := id, timestamp := now
                         status := PStatus.success, duration := some elapsed
                         message := none, ip := ip }] := by
  have hr : ∃ r, getMonitorRow st id = some r := by
    unfold getMonitor at hm
    cases hq : getMonitorRow st id with
    | none => rw [hq] at hm; exact absurd hm (by simp)
    | some r => exact ⟨r, rfl⟩
  obtain ⟨r, hr⟩ := hr
  unfold handleGetPing
  rw [hm]
  unfold recordPing
  rw [hr]
  exact ⟨rfl, rfl⟩

/-- Witness for C9 (amended) on the concrete one-monitor store. -/

theorem getPing_records_measured_metadata_witness :
    (handleGetPing st1 "m1" true "p1" 1000 0 (some "1.2.3.4")).1
        = { status := 200, body := "OK" }
    ∧ (handleGetPing st1 "m1" true "p1" 1000 0 (some "1.2.3.4")).2.pings
        = st1.pings ++ [{ id := "p1", monitorId := "m1", timestamp := 1000
                          status := PStatus.success, duration := some 0
                          message := none, ip := some "1.2.3.4" }] :=
  getPing_records_measured_metadata st1 "m1" "p1" 1000 0 (some "1.2.3.4")
    (rowToMonitor row1 [] 1000) (by decide)

/-- Counterexample for C9: at a known, non rate-limited monitor the GET
handler stores a ping whose duration and ip are both present, so the
recorded ping does not have zero metadata. -/

theorem getPing_zero_metadata_counterexample :
    (handleGetPing st1 "m1" true "p1" 1000 0 (some "1.2.3.4")).1
        = { status := 200, body := "OK" }
    ∧ ((handleGetPing st1 "m1" true "p1" 1000 0 (some "1.2.3.4")).2.pings.any
        (fun q => q.id == "p1" && q.duration.isSome && q.ip.isSome)) = true := by
  decide

theorem postPing_reports_prerecord_status (st : Store) (id newId : String) (now : Int)
    (body : PingBody) (ip : Option String) (m : Monitor)
    (hm : getMonitor st id now = some m)
    (hbody : body ≠ PingBody.invalid) :
    (handlePostPing st id true newId now body ip).1.httpStatus = 200
    ∧ (handlePostPing st id true newId now body ip).1.monitor
        = some { id := m.id, name := m.name, status := m.status }
    ∧ (m.status = MStatus.down →
        ((getMonitor (handlePostPing st id true newId now body ip).2 id now).map
            (fun x => x.status)) = some MStatus.healthy) := by
  obtain ⟨r, hr⟩ : ∃ r, getMonitorRow st id = some r := by
    unfold getMonitor at hm
    cases hq : getMonitorRow st id with
    | none => rw [hq] at hm; exact absurd hm (by simp)
    | some r => exact ⟨r, rfl⟩
  have hmr : m = rowToMonitor r ((getPingsForMonitor st id).map rowToPing) now := by
    unfold getMonitor at hm
    rw [hr] at hm
    exact (Option.some.injEq _ _ ▸ hm).symm
  -- the store after the accepted ping, identical in both body branches
  have hrec : ∀ success duration message,
      (recordPing st id newId now success duration message ip).2.monitors
        = st.monitors.map (fun x => if x.id == id then { x with last_ping := some now } else x) := by
    intro success duration message
    unfold recordPing
    rw [hr]
  have hfound : ∀ success duration message,
      getMonitorRow (recordPing st id newId now success duration message ip).2 id
        = some { r with last_ping := some now } := by
    intro success duration message
    unfold getMonitorRow
    rw [hrec]
    exact find?_map_update st.monitors id
      (fun x => { x with last_ping := some now }) (fun _ => rfl) r hr
  have hdownclear : m.status = MStatus.down → r.paused = false := by
    intro hdown
    cases hp : r.paused with
    | false => rfl
    | true =>
      have : m.status = MStatus.paused := by
        rw [hmr]
        show getMonitorStatus (monitorOfRow r _) now = MStatus.paused
        exact getMonitorStatus_of_paused _ now hp
      rw [this] at hdown
      exact absurd hdown (by simp)
  have hpost : ∀ (st2 : Store), getMonitorRow st2 id = some { r with last_ping := some now } →
      ((getMonitor st2 id now).map (fun x => x.status)) = some MStatus.healthy ∨
      ¬ (r.paused = false) := by
    intro st2 h2
    by_cases hp : r.paused = false
    · left
      unfold getMonitor
      rw [h2]
      have hh : (rowToMonitor { r with last_ping := some now }
          ((getPingsForMonitor st2 id).map rowToPing) now).status = MStatus.healthy :=
        monitorOfRow_fresh_healthy { r with last_ping := some now }
          ((getPingsForMonitor st2 id).map rowToPing) now hp rfl
      simp [hh]
    · right; exact hp
  cases body with
  | invalid => exact absurd rfl hbody
  | noBody =>
    refine ⟨?_, ?_, ?_⟩
    · unfold handlePostPing
      rw [hm]
      rfl
    · unfold handlePostPing
      rw [hm]
      rfl
    · intro hdown
      have hp := hdownclear hdown
      have h2 : getMonitorRow (handlePostPing st id true newId now PingBody.noBody ip).2 id
          = some { r with last_ping := some now } := by
        have : (handlePostPing st id true newId now PingBody.noBody ip).2
            = (recordPing st id newId now true none none ip).2 := by
          unfold handlePostPing
          rw [hm]
          rfl
        rw [this]
        exact hfound true none none
      rcases hpost _ h2 with h | h
      · exact h
      · exact absurd hp h
  | valid success duration message =>
    refine ⟨?_, ?_, ?_⟩
    · unfold handlePostPing
      rw [hm]
      rfl
    · unfold handlePostPing
      rw [hm]
      rfl
    · intro hdown
      have hp := hdownclear hdown
      have h2 : getMonitorRow (handlePostPing st id true newId now (PingBody.valid success duration message) ip).2 id
          = some { r with last_ping := some now } := by
        have : (handlePostPing st id true newId now (PingBody.valid success duration message) ip).2
            = (recordPing st id newId now success duration message ip).2 := by
          unfold handlePostPing
          rw [hm]
          rfl
        rw [this]
        exact hfound success duration message
      rcases hpost _ h2 with h | h
      · exact h
      · exact absurd hp h

/-- Witness for C10: a concrete down monitor accepts a ping and the
response still reports down, while a fresh read of the updated store at
the same instant reports healthy. -/

theorem postPing_reports_prerecord_status_witness :
    (handlePostPing st1 "m1" true "p1" 1000000 PingBody.noBody none).1.httpStatus = 200
    ∧ (handlePostPing st1 "m1" true "p1" 1000000 PingBody.noBody none).1.monitor
        = some { id := "m1", name := "backup", status := MStatus.down }
    ∧ ((getMonitor (handlePostPing st1 "m1" true "p1" 1000000 PingBody.noBody none).2 "m1" 1000000).map
        (fun x => x.status)) = some MStatus.healthy :=
  have h := postPing_reports_prerecord_status st1 "m1" "p1" 1000000 PingBody.noBody none
    (rowToMonitor row1 [] 1000000) (by decide) (by decide)
  ⟨h.1, h.2.1, h.2.2 (by decide)⟩

end CronGuard
